/-
Verification of the core iteration, termination and dispatch logic of the
optimistix nonlinear-solver library, against its specification.

The development shallowly embeds the relevant Python functions:
* machine floats are modelled by the type `F`: a rational number, `inf`,
  `ninf` (negative infinity) or `nan`, with IEEE-style arithmetic and
  comparisons (every comparison involving `nan` is false);
* where a quantity is only ever finite in the property at hand, plain
  rationals `ℚ` stand in for floats (exact arithmetic on the inputs used);
* arrays are lists, pytrees of arrays are binary trees of lists;
* external collaborators (automatic differentiation, the individual dense
  linear-solver kernels, `jnp.sqrt`) enter as explicit function parameters.

Each claim has exactly one theorem, stated after all definitions.
-/
import Mathlib

/-- A model of an IEEE floating-point value: a finite rational, one of the two
infinities, or `nan`.  (Signed zero is not modelled; none of the verified code
paths distinguish `+0.0` from `-0.0`.) -/
inductive F where
  | fin : ℚ → F
  | inf : F
  | ninf : F
  | nan : F
deriving DecidableEq

namespace F

/-- `jnp.isfinite`. -/
def isFinite : F → Bool
  | fin _ => true
  | _ => false

/-- IEEE negation. -/
def neg : F → F
  | fin a => fin (-a)
  | inf => ninf
  | ninf => inf
  | nan => nan

/-- IEEE addition: `inf + ninf = nan`, `nan` propagates. -/
def add : F → F → F
  | nan, _ => nan
  | _, nan => nan
  | fin a, fin b => fin (a + b)
  | fin _, inf => inf
  | inf, fin _ => inf
  | inf, inf => inf
  | fin _, ninf => ninf
  | ninf, fin _ => ninf
  | ninf, ninf => ninf
  | inf, ninf => nan
  | ninf, inf => nan

/-- IEEE subtraction, defined as addition of the negation (agrees with IEEE
subtraction on all cases). -/
def sub (a b : F) : F := a.add b.neg

/-- IEEE multiplication: `0 * inf = nan`, `nan` propagates. -/
def mul : F → F → F
  | nan, _ => nan
  | _, nan => nan
  | fin a, fin b => fin (a * b)
  | fin a, inf => if 0 < a then inf else if a < 0 then ninf else nan
  | inf, fin a => if 0 < a then inf else if a < 0 then ninf else nan
  | fin a, ninf => if 0 < a then ninf else if a < 0 then inf else nan
  | ninf, fin a => if 0 < a then ninf else if a < 0 then inf else nan
  | inf, inf => inf
  | ninf, ninf => inf
  | inf, ninf => ninf
  | ninf, inf => ninf

/-- IEEE division: `x / 0` is a signed infinity for `x ≠ 0`, `0 / 0 = nan`,
`x / inf = 0`, `inf / inf = nan`, `nan` propagates.  (The unsigned zero is
treated as positive, as on the verified code paths.) -/
def div : F → F → F
  | nan, _ => nan
  | _, nan => nan
  | fin a, fin b =>
      if b = 0 then (if a = 0 then nan else if 0 < a then inf else ninf)
      else fin (a / b)
  | fin _, inf => fin 0
  | fin _, ninf => fin 0
  | inf, fin b => if 0 ≤ b then inf else ninf
  | ninf, fin b => if 0 ≤ b then ninf else inf
  | inf, inf => nan
  | inf, ninf => nan
  | ninf, inf => nan
  | ninf, ninf => nan

/-- IEEE strict less-than: false whenever either side is `nan`. -/
def lt : F → F → Bool
  | nan, _ => false
  | _, nan => false
  | fin a, fin b => decide (a < b)
  | fin _, inf => true
  | inf, fin _ => false
  | ninf, fin _ => true
  | fin _, ninf => false
  | ninf, inf => true
  | inf, ninf => false
  | inf, inf => false
  | ninf, ninf => false

/-- IEEE less-or-equal: false whenever either side is `nan`. -/
def le : F → F → Bool
  | nan, _ => false
  | _, nan => false
  | fin a, fin b => decide (a ≤ b)
  | fin _, inf => true
  | inf, fin _ => false
  | ninf, _ => true
  | fin _, ninf => false
  | inf, ninf => false
  | inf, inf => true

/-- IEEE absolute value. -/
def abs : F → F
  | fin a => fin |a|
  | inf => inf
  | ninf => inf
  | nan => nan

/-- `jnp.maximum` of two values: propagates `nan`. -/
def maxv (a b : F) : F :=
  if a = nan ∨ b = nan then nan else if lt a b then b else a

end F

/-- The result codes of `optimistix/solution.py` (`class RESULTS`). -/
inductive RESULTS where
  | successful
  | max_steps_reached
  | linear_singular
  | nonlinear_divergence
deriving DecidableEq

/-- `RESULTS.where(pred, a, b)`, the elementwise select used on result codes
(`jnp.where` on the underlying integer tags).  Named `select` because `where`
is reserved in Lean. -/
def RESULTS.select (pred : Bool) (a b : RESULTS) : RESULTS :=
  if pred then a else b

namespace Jaxopt

/-- The result codes of the early `jaxopt` half of the repository
(`jaxopt/results.py` is not under `src/`; the constructors are the ones its
callers in `src/jaxopt` use: `successful`, `max_steps_reached`, `singular`,
`nonconvergence`, `divergence`). -/
inductive RESULTS where
  | successful
  | max_steps_reached
  | singular
  | nonconvergence
  | divergence
deriving DecidableEq

/-- The four concrete solvers the `AutoLinearSolver` dispatcher can select
(`jaxopt/linear_solve.py`, the `_cg_token`/`_cholesky_token`/`_lu_token`/
`_svd_token` branches). -/
inductive SolverChoice where
  | CG
  | Cholesky
  | LU
  | SVD
deriving DecidableEq

/-- The structure pattern of a linear operator, as consumed by
`AutoLinearSolver.init`: whether it is symmetric and whether it may be
singular. -/
structure Pattern where
  symmetric : Bool
  maybe_singular : Bool

/-- Modelled from the spec: the linear-operator file defining `pattern` is not
under `src/` (only its callers are).  Per the spec, an operator carries a tag
set including `symmetric` and `nonsingular`, tags being a conservative lower
bound on truth; `maybe_singular` holds exactly when the `nonsingular` tag is
absent. -/
structure Tags where
  symmetric : Bool
  nonsingular : Bool

/-- Modelled from the spec: the pattern derived from an operator tag set. -/
def patternOfTags (t : Tags) : Pattern :=
  { symmetric := t.symmetric, maybe_singular := !t.nonsingular }

/-- `AutoLinearSolver.init` from `jaxopt/linear_solve.py`: choose the concrete
solver from squareness (`in_size == out_size`) and the operator pattern. -/
def autoLinearSolverInit (inSize outSize : ℕ) (pattern : Pattern) : SolverChoice :=
  if inSize = outSize then
    if pattern.symmetric then
      if pattern.maybe_singular then SolverChoice.CG else SolverChoice.Cholesky
    else
      if pattern.maybe_singular then SolverChoice.SVD else SolverChoice.LU
  else SolverChoice.SVD

end Jaxopt

/-- The result remapping in `AbstractGradOnly.step`
(`optimistix/solver/nonlinear_cg.py`):
`result = jnp.where(result == RESULTS.max_steps_reached, RESULTS.successful,
result)` applied to the inner line-search solution result. -/
def gradOnlyStepResult (lineSolResult : RESULTS) : RESULTS :=
  if lineSolResult = RESULTS.max_steps_reached then RESULTS.successful
  else lineSolResult

/-- The result remapping in `AbstractGradientDescent.step`
(`optimistix/_solver/gradient_methods.py`):
`RESULTS.where(line_sol.result == RESULTS.max_steps_reached,
RESULTS.successful, line_sol.result)`. -/
def gradientDescentStepResult (lineSolResult : RESULTS) : RESULTS :=
  RESULTS.select (lineSolResult = RESULTS.max_steps_reached)
    RESULTS.successful lineSolResult

/-- The four constants of `ClassicalTrustRegion`
(`optimistix/solver/trust_region.py`). -/
structure TRParams where
  high_cutoff : ℚ
  low_cutoff : ℚ
  high_constant : ℚ
  low_constant : ℚ

/-- The class-level defaults of `ClassicalTrustRegion`:
`high_cutoff = 0.99`, `low_cutoff = 0.01`, `high_constant = 3.5`,
`low_constant = 0.25`. -/
def classicalTrustRegionDefaults : TRParams :=
  { high_cutoff := 99/100, low_cutoff := 1/100,
    high_constant := 7/2, low_constant := 1/4 }

/-- The decision core of `ClassicalTrustRegion.step`
(`optimistix/solver/trust_region.py`).  Here `y` is the iterate of the
controller, i.e. the current step-size parameter; `f_prev` is `state.f_prev`;
`f_new` and `predicted_reduction` are the freshly evaluated objective and
predicted reduction.  Returns `(new_y, finished)`, where `finished` is stored
in the new state and later returned by `terminate`.  Translated line by line:
`finished`/`good`/`bad` comparisons, then
`new_y = jnp.where(good, y * high_constant, y)` followed by
`new_y = jnp.where(bad, y * low_constant, new_y)` (so the `bad` select is
applied after, and therefore over, the `good` select). -/
def classicalTrustRegionStep (p : TRParams)
    (f_prev f_new predicted_reduction y : ℚ) : ℚ × Bool :=
  let finished := decide (f_new < f_prev + p.low_cutoff * predicted_reduction)
  let good := decide (f_new < f_prev + p.high_cutoff * predicted_reduction)
  let bad := decide (f_new > f_prev + p.low_cutoff * predicted_reduction)
  let new_y := if good then y * p.high_constant else y
  let new_y2 := if bad then y * p.low_constant else new_y
  (new_y2, finished)

/-- Dot product of two (equal-length) flat vectors: `tree_inner_prod` of
`optimistix/misc.py` restricted to flat lists. -/
def dotQ (a b : List ℚ) : ℚ := (List.zipWith (fun x y => x * y) a b).sum

/-- Matrix–vector product of an explicit matrix (rows as lists). -/
def matMv (m : List (List ℚ)) (v : List ℚ) : List ℚ :=
  m.map (fun row => dotQ row v)

/-- The state of `BacktrackingArmijo` (`optimistix/solver/backtracking.py`),
with the linear operator materialised as an explicit matrix and the scalars as
rationals (all quantities on the verified paths are finite). -/
structure BacktrackingState where
  f_delta : ℚ
  f0 : ℚ
  vector : List ℚ
  operatorMat : List (List ℚ)
  diff : List ℚ
  compute_f0 : Bool
  result : RESULTS
  step : ℕ

/-- `BacktrackingArmijo.step`: the proposed step-size is
`_delta = y * decrease_factor`; the one-dimensional function is evaluated at
`0` on the bootstrap step (`compute_f0`) and at `_delta` otherwise; `f0` is
reset from that evaluation on the bootstrap step.  The one-dimensional
function is a parameter `fn` returning `(f_delta, diff, result)` (the aux
slots not used by the solver are dropped).  Returns the new iterate `_delta`
and the new state. -/
def backtrackingArmijoStep (decrease_factor : ℚ)
    (fn : ℚ → ℚ × List ℚ × RESULTS) (y : ℚ) (state : BacktrackingState) :
    ℚ × BacktrackingState :=
  let d := y * decrease_factor
  let delta := if state.compute_f0 then 0 else d
  let r := fn delta
  let f_delta := r.1
  let diff := r.2.1
  let result := r.2.2
  let f0 := if state.compute_f0 then f_delta else state.f0
  (d, { f_delta := f_delta, f0 := f0, vector := state.vector,
        operatorMat := state.operatorMat, diff := diff,
        compute_f0 := false, result := result, step := state.step + 1 })

/-- `BacktrackingArmijo.terminate`: the gradient is `operatorᵀ · vector` in
the Gauss–Newton case and `vector` otherwise; the predicted reduction
`⟨grad, diff⟩` is clipped from above at zero; success requires the strict
Armijo inequality and `step > 1`.  (`y` is a finite scalar here, so the
`jnp.isfinite(y)` guard on the result is true and the result is
`state.result`.) -/
def backtrackingArmijoTerminate (gauss_newton : Bool) (backtrack_slope : ℚ)
    (state : BacktrackingState) : Bool × RESULTS :=
  let grad := if gauss_newton
    then matMv state.operatorMat.transpose state.vector
    else state.vector
  let predicted_reduction := min (dotQ grad state.diff) 0
  let finished :=
    decide (state.f_delta < state.f0 + backtrack_slope * predicted_reduction)
      && decide (state.step > 1)
  (finished, state.result)

/-- The default backtracking constants appearing in the repository
(`LevenbergMarquardt.__init__` in
`optimistix/solver/levenberg_marquardt_gauss_newton.py`):
`backtrack_slope = 0.1`. -/
def backtrackSlopeDefault : ℚ := 1/10

/-- The default `decrease_factor = 0.5` from the same constructor. -/
def decreaseFactorDefault : ℚ := 1/2

/-- `10 ** (2 - precision)`: the ad-hoc resolution of `_small` in
`jaxopt/solver/newton.py`, with `precision = jnp.finfo(dtype).precision`
(6 for float32, 15 for float64). -/
def finfoResolution (precision : ℕ) : ℚ := (10 : ℚ) ^ ((2 : ℤ) - (precision : ℤ))

/-- `_small(diffsize)` from `jaxopt/solver/newton.py`:
`diffsize < 10 ** (2 - precision)`. -/
def newtonSmall (precision : ℕ) (diffsize : F) : Bool :=
  F.lt diffsize (F.fin (finfoResolution precision))

/-- `_diverged(rate)` from `jaxopt/solver/newton.py`:
`~isfinite(rate) | (rate > 2)`. -/
def newtonDiverged (rate : F) : Bool :=
  !rate.isFinite || F.lt (F.fin 2) rate

/-- `_converged(factor, tol)` from `jaxopt/solver/newton.py`:
`(factor > 0) & (factor < tol)`. -/
def newtonConverged (factor : F) (tol : ℚ) : Bool :=
  F.lt (F.fin 0) factor && F.lt factor (F.fin tol)

/-- The state of `_NewtonChord` (`jaxopt/solver/newton.py`), minus the cached
linear-solver state which the termination logic does not read. -/
structure NewtonChordState where
  step : ℕ
  diffsize : F
  diffsize_prev : F

/-- The default `kappa = 1e-2` of `_NewtonChord`. -/
def newtonKappaDefault : ℚ := 1/100

/-- `_NewtonChord.terminate` from `jaxopt/solver/newton.py`.  The source reads
the bare name `diffsize` inside `terminate`, where only `state` is in scope;
as in the otherwise-identical `AbstractGradOnly.terminate` of
`optimistix/solver/nonlinear_cg.py`, this resolves to `state.diffsize`.
Line by line: `rate = diffsize / diffsize_prev`,
`factor = diffsize * rate / (1 - rate)`, the three predicates, then the
result built by three `jnp.where` selects (so `small` overrides `diverged`
overrides `converged`), and
`terminate = at_least_two & (small | diverged | converged)`. -/
def newtonChordTerminate (kappa : ℚ) (precision : ℕ)
    (state : NewtonChordState) : Bool × Jaxopt.RESULTS :=
  let at_least_two := decide (state.step ≥ 2)
  let rate := F.div state.diffsize state.diffsize_prev
  let factor := F.div (F.mul state.diffsize rate) (F.sub (F.fin 1) rate)
  let small := newtonSmall precision state.diffsize
  let diverged := newtonDiverged rate
  let converged := newtonConverged factor kappa
  let result1 := if converged then Jaxopt.RESULTS.successful
                 else Jaxopt.RESULTS.nonconvergence
  let result2 := if diverged then Jaxopt.RESULTS.divergence else result1
  let result3 := if small then Jaxopt.RESULTS.successful else result2
  (at_least_two && (small || diverged || converged), result3)

/-- The elementwise scale `scale = atol + rtol * flat` computed by
`_NewtonChord.step` (`jaxopt/solver/newton.py`).  Note: the source multiplies
`rtol` by the raw iterate `flat`, not by its absolute value. -/
def newtonScale (atol rtol : ℚ) (flat : List F) : List F :=
  flat.map (fun yi => F.add (F.fin atol) (F.mul (F.fin rtol) yi))

/-- The scaled difference `diff / scale` whose norm is `diffsize` in
`_NewtonChord.step`. -/
def newtonScaledDiff (atol rtol : ℚ) (flat diff : List F) : List F :=
  List.zipWith F.div diff (newtonScale atol rtol flat)

/-- The scaled difference the specification prescribes for the same step:
`delta / (atol + rtol * |y|)` with `|y|` the elementwise absolute value of the
iterate.  (Stated from the spec sentence for comparison with
`newtonScaledDiff`; the sibling `optimistix/solver/nonlinear_cg.py` computes
its scale with `jnp.abs` in exactly this way.) -/
def newtonScaledDiffSpec (atol rtol : ℚ) (flat diff : List F) : List F :=
  List.zipWith F.div diff
    (flat.map (fun yi => F.add (F.fin atol) (F.mul (F.fin rtol) (F.abs yi))))

/-- `_NewtonChord.step` from `jaxopt/solver/newton.py`, over the flattened
iterate.  `fn` is the curried flattened function, `solveJ` the configured
linear solve against the Jacobian (abstract collaborators).  The source sets
`diffsize_prev = diffsize` before any local `diffsize` exists; per the state
threading (and the sibling `nonlinear_cg.py`) this is the previous
`state.diffsize`.  Returns `(new_y, new_state)` with
`new_y = flat - diff` and `diffsize = norm(diff / scale)`. -/
def newtonChordStep (fn : List F → List F) (solveJ : List F → List F)
    (norm : List F → F) (atol rtol : ℚ) (flat : List F)
    (state : NewtonChordState) : List F × NewtonChordState :=
  let fx := fn flat
  let diff := solveJ fx
  let diffsize_prev := state.diffsize
  let diffsize := norm (newtonScaledDiff atol rtol flat diff)
  let new_y := List.zipWith F.sub flat diff
  (new_y, { step := state.step + 1, diffsize := diffsize,
            diffsize_prev := diffsize_prev })

/-- `B + mu * IdentityLinearOperator(...)`: add `mu` to each diagonal entry of
the explicit matrix. -/
def matAddSmulIdentity (B : List (List F)) (mu : F) : List (List F) :=
  B.mapIdx (fun i row => row.mapIdx (fun j x => if i = j then F.add x mu else x))

/-- `_Damped.__call__` from `optimistix/_solver/iterative_dual.py`: wrap `fn`
so that its output is `(fn(y), sqrt(damping) * y)`.  `sqrtF` is `jnp.sqrt`
(an external numeric primitive, passed as a parameter). -/
def dampedCall (sqrtF : F → F) (fn : List F → List F) (damping : F)
    (y : List F) : List F × List F :=
  let s := sqrtF damping
  (fn y, y.map (fun yi => F.mul s yi))

/-- The damping `jnp.where(delta_nonzero, 1 / delta, jnp.inf)` used by
`DirectIterativeDual.__call__`, where
`delta_nonzero = delta > jnp.finfo(dtype).eps`. -/
def directDualDamping (eps delta : ℚ) : F :=
  if eps < delta then F.fin (1 / delta) else F.inf

/-- The augmented right-hand side of the Gauss–Newton branch of
`DirectIterativeDual.__call__`: `(vector, zeros_like(y))`. -/
def directDualGNVector (v y : List F) : List F × List F :=
  (v, y.map (fun _ => F.fin 0))

/-- `DirectIterativeDual.__call__` (`optimistix/_solver/iterative_dual.py`),
non-Gauss-Newton branch, over explicit matrices.  `solve` is the linear-solve
collaborator.  Line by line: `delta_nonzero = delta > eps`; the operator is
`B + where(delta_nonzero, 1/delta, inf) * I`; the system is solved against
`vector`; `diff = tree_where(delta_nonzero, -solution, zeros)`. -/
def directIterativeDualCall (solve : List (List F) → List F → List F)
    (eps : ℚ) (B : List (List F)) (v : List F) (delta : ℚ) : List F :=
  let delta_nonzero := decide (eps < delta)
  let operator := matAddSmulIdentity B (directDualDamping eps delta)
  let soln := solve operator v
  let no_diff := soln.map (fun _ => F.fin 0)
  if delta_nonzero then soln.map F.neg else no_diff

/-- `resolve_rcond` from `optimistix/misc.py` (with `jnp.finfo(dtype).eps` as
the parameter `eps`). -/
def resolveRcond (rcond : Option ℚ) (n m : ℕ) (eps : ℚ) : ℚ :=
  match rcond with
  | none => eps * (max n m : ℕ)
  | some r => if r < 0 then eps else r

/-- `jnp.max` over a list (reduction with identity `-inf`, propagating
`nan`). -/
def listMaxF (l : List F) : F := l.foldl F.maxv F.ninf

/-- `Diagonal.compute` from `optimistix/solver/diagonal.py`.  The state from
`init` is the pair of the (optional) diagonal and the `has_unit_diagonal`
flag; if the operator carries the unit-diagonal tag the vector is returned
unchanged, otherwise the vector is divided elementwise by the diagonal, whose
entries below the `rcond` cutoff are first replaced by `inf` when
`well_posed=False`. -/
def diagonalCompute (well_posed : Bool) (rcond : Option ℚ) (eps : ℚ)
    (diag : List F) (unit_diagonal : Bool) (vector : List F) : List F :=
  if unit_diagonal then vector
  else
    let size := diag.length
    let diag2 :=
      if well_posed then diag
      else
        let rc := resolveRcond rcond size size eps
        let abs_diag := diag.map F.abs
        let mx := listMaxF abs_diag
        List.zipWith
          (fun d ad => if F.lt (F.mul (F.fin rc) mx) ad then d else F.inf)
          diag abs_diag
    List.zipWith F.div vector diag2

/-- Clamped list indexing, as performed by jitted JAX gathers (out-of-range
indices clamp to the final entry); absent entries default to `0`. -/
def getClamped (l : List ℚ) (i : ℕ) : ℚ :=
  if i < l.length then l.getD i 0 else l.getD (l.length - 1) 0

/-- The forward (`thomas_scan`) pass of `Tridiagonal.compute`
(`optimistix/solver/tridiagonal.py`): carry `(c_p, d_p, step)`, consuming the
zipped `(diagonal, vector)` list, emitting the `(c_p, d_p)` pairs.
`a = lower_diagonal[step - 1 if step > 0 else 0]`,
`c = upper_diagonal[step if step < size else 0]`,
`denom = b - a * c_p`, `d_p = (d - a * d_p) / denom`, `c_p = c / denom`. -/
def thomasScanGo (lower upper : List ℚ) (size : ℕ) :
    ℕ → ℚ → ℚ → List (ℚ × ℚ) → List (ℚ × ℚ)
  | _, _, _, [] => []
  | step, c_p, d_p, bd :: rest =>
      let aIdx := if step > 0 then step - 1 else 0
      let cIdx := if step < size then step else 0
      let a := getClamped lower aIdx
      let c := getClamped upper cIdx
      let denom := bd.1 - a * c_p
      let new_d_p := (bd.2 - a * d_p) / denom
      let new_c_p := c / denom
      (new_c_p, new_d_p) :: thomasScanGo lower upper size (step + 1) new_c_p new_d_p rest

/-- The backward (`backsub`) pass of `Tridiagonal.compute`: a reversed scan
with carry `x_prev` starting at `0`, computing `x = d_p - c_p * x_prev`. -/
def thomasBacksub (cdp : List (ℚ × ℚ)) : List ℚ :=
  (cdp.foldr
    (fun cd acc => ((cd.2 - cd.1 * acc.1, (cd.2 - cd.1 * acc.1) :: acc.2) : ℚ × List ℚ))
    ((0 : ℚ), ([] : List ℚ))).2

/-- `Tridiagonal.compute` (`optimistix/solver/tridiagonal.py`): the Thomas
algorithm on the three diagonals extracted from the operator at `init`.  The
rationals model exact float arithmetic on the inputs exercised below. -/
def tridiagonalCompute (diagonal lower_diagonal upper_diagonal vector : List ℚ) :
    List ℚ :=
  let size := diagonal.length
  let cdp := thomasScanGo lower_diagonal upper_diagonal size 0 0 0
    (List.zip diagonal vector)
  thomasBacksub cdp

/-- Entry `(i, j)` of an explicit matrix given as rows (missing entries are
zero). -/
def matEntry (m : List (List ℚ)) (i j : ℕ) : ℚ := (m.getD i []).getD j 0

/-- Modelled from the spec: `has_unit_diagonal` of the linear-operator facade
(the file defining the operator tags is not under `src/`).  Tags are a
conservative lower bound on truth, so an operator may carry the unit-diagonal
tag exactly when every diagonal entry of its matrix is one. -/
def matHasUnitDiagonal (m : List (List ℚ)) : Bool :=
  (List.range m.length).all (fun i => matEntry m i i = 1)

/-- Modelled from the spec: `is_tridiagonal` — every entry off the three
central diagonals is zero. -/
def matIsTridiagonal (m : List (List ℚ)) : Bool :=
  (List.range m.length).all (fun i =>
    (List.range m.length).all (fun j =>
      (i ≤ j + 1 && j ≤ i + 1) || matEntry m i j = 0))

/-- Modelled from the spec: `tridiagonal(operator)` — extract the main, lower
and upper diagonals of the operator matrix. -/
def matTridiagonalParts (m : List (List ℚ)) : List ℚ × List ℚ × List ℚ :=
  ((List.range m.length).map (fun i => matEntry m i i),
   (List.range (m.length - 1)).map (fun i => matEntry m (i + 1) i),
   (List.range (m.length - 1)).map (fun i => matEntry m i (i + 1)))

/-- Value trees (pytrees of arrays): leaves are flat arrays of scalars. -/
inductive ValueTree where
  | leaf : List F → ValueTree
  | node : ValueTree → ValueTree → ValueTree

/-- `ravel_pytree`: the flattened vector of a value tree. -/
def ValueTree.ravel : ValueTree → List F
  | leaf xs => xs
  | node l r => l.ravel ++ r.ravel

/-- The sum of squares of a flat vector: `sum(real(x * conj(x)))` for real
scalars. -/
def sumSqF (l : List F) : F :=
  l.foldr (fun x acc => F.add (F.mul x x) acc) (F.fin 0)

/-- `jnp.mean(x_sq)`: the sum of squares divided by the element count (an
IEEE division, so `0 / 0 = nan` on an empty vector). -/
def meanSqF (l : List F) : F := F.div (sumSqF l) (F.fin l.length)

/-- `rms_norm` from `optimistix/misc.py`: flatten the tree; if the flattened
size is zero return `0`, otherwise return `sqrt(mean(x * conj(x)))`.
`sqrtF` is `jnp.sqrt` (external primitive, passed as a parameter). -/
def rmsNorm (sqrtF : F → F) (t : ValueTree) : F :=
  let x := t.ravel
  if x.length = 0 then F.fin 0 else sqrtF (meanSqF x)

/-- The interface an `AbstractIterativeSolver` presents to the driver
(`optimistix/_iterate.py`): `terminate` and `step`, over an iterate type `Y`,
a state type `S` and an aux type `A`.  (`init` happens before the loop and
`buffers` is only consumed by the checkpointing adjoint, so neither appears
in the loop model.) -/
structure IterSolver (Y S A : Type) where
  terminate : Y → S → Bool × RESULTS
  step : Y → S → Y × S × A

/-- The loop carry of `_iterate` (`optimistix/_iterate.py`):
`(y, num_steps, dynamic_state, last_aux)`.  The state partition into dynamic
and static parts is the identity here (every field of `S` is carried). -/
structure IterCarry (Y S A : Type) where
  y : Y
  num_steps : ℕ
  state : S
  aux : A

/-- `cond_fun` of `_iterate`: `jnp.invert(terminate)`. -/
def iterCondFun {Y S A : Type} (solver : IterSolver Y S A)
    (c : IterCarry Y S A) : Bool :=
  !(solver.terminate c.y c.state).1

/-- `body_fun` of `_iterate`: one solver step, incrementing `num_steps`. -/
def iterBodyFun {Y S A : Type} (solver : IterSolver Y S A)
    (c : IterCarry Y S A) : IterCarry Y S A :=
  let r := solver.step c.y c.state
  { y := r.1, num_steps := c.num_steps + 1, state := r.2.1, aux := r.2.2 }

/-- The bounded while loop of `ImplicitAdjoint` (`_while_loop` in
`optimistix/adjoint.py`, `max_steps is not None` branch): the wrapped
condition is `(step < max_steps) & cond_fun(val)` and the wrapped body
increments the step counter.  Written with explicit fuel (the guard bounds the
iteration count by `max_steps`, so fuel `max_steps - step` suffices and the
function equals the unbounded `lax.while_loop` on the wrapped condition). -/
def whileLoopAux {C : Type} (cond : C → Bool) (body : C → C)
    (max_steps : ℕ) : ℕ → ℕ × C → ℕ × C
  | 0, sc => sc
  | fuel + 1, (step, val) =>
      if decide (step < max_steps) && cond val then
        whileLoopAux cond body max_steps fuel (step + 1, body val)
      else (step, val)

/-- `_while_loop(cond_fun, body_fun, init_val, max_steps)` from
`optimistix/adjoint.py`: run the wrapped loop from `(0, init_val)` and return
the final `val` (the step counter is dropped: `_, final_val = ...`). -/
def whileLoopBounded {C : Type} (cond : C → Bool) (body : C → C)
    (max_steps : ℕ) (init : C) : C :=
  (whileLoopAux cond body max_steps max_steps (0, init)).2

/-- The output of the driver: `final_y` and (`num_steps`, `result`,
`final_state`, `aux`) as returned by `_iterate` and packaged into a
`Solution` with `stats.num_steps = num_steps` by `iterative_solve`. -/
structure DriverOutput (Y S A : Type) where
  value : Y
  num_steps : ℕ
  result : RESULTS
  state : S
  aux : A

/-- The loop-and-downgrade core of `_iterate` (`optimistix/_iterate.py`) run
under the bounded while loop of `optimistix/adjoint.py`: iterate
`body_fun`/`cond_fun` from `(y0, 0, state0, aux0)`, then re-check termination
on the final carry and downgrade a `successful` result to
`max_steps_reached` whenever `terminate` is still false:
`RESULTS.where((result == successful) & invert(terminate),
max_steps_reached, result)`. -/
def iterateDriver {Y S A : Type} (solver : IterSolver Y S A) (max_steps : ℕ)
    (y0 : Y) (state0 : S) (aux0 : A) : DriverOutput Y S A :=
  let init : IterCarry Y S A := ⟨y0, 0, state0, aux0⟩
  let final := whileLoopBounded (iterCondFun solver) (iterBodyFun solver)
    max_steps init
  let tr := solver.terminate final.y final.state
  let result := RESULTS.select
    (decide (tr.2 = RESULTS.successful) && !tr.1)
    RESULTS.max_steps_reached tr.2
  ⟨final.y, final.num_steps, result, final.state, final.aux⟩

/-- The carry after `k` solver steps from the initial carry. -/
def iterCarryAt {Y S A : Type} (solver : IterSolver Y S A)
    (y0 : Y) (state0 : S) (aux0 : A) (k : ℕ) : IterCarry Y S A :=
  (iterBodyFun solver)^[k] ⟨y0, 0, state0, aux0⟩

/-- The solver-reported termination pair at the carry after `k` steps. -/
def driverTerminateAt {Y S A : Type} (solver : IterSolver Y S A)
    (y0 : Y) (state0 : S) (aux0 : A) (k : ℕ) : Bool × RESULTS :=
  solver.terminate (iterCarryAt solver y0 state0 aux0 k).y
    (iterCarryAt solver y0 state0 aux0 k).state

/-- A concrete iterative solver used to instantiate the driver theorem: the
state counts its own steps and termination fires once the state reaches 3,
always reporting `successful`. -/
def exampleSolver : IterSolver ℕ ℕ Unit :=
  { terminate := fun _ s => (decide (3 ≤ s), RESULTS.successful),
    step := fun y s => (y + 1, s + 1, ()) }

theorem whileLoopAux_spec {C : Type} (cond : C → Bool) (body : C → C)
    (max_steps : ℕ) :
    ∀ fuel step c, step + fuel = max_steps →
      ∃ n, whileLoopAux cond body max_steps fuel (step, c)
            = (n, body^[n - step] c)
        ∧ step ≤ n ∧ n ≤ max_steps
        ∧ (cond (body^[n - step] c) = false ∨ n = max_steps)
        ∧ ∀ k, k < n - step → cond (body^[k] c) = true := by
  intro fuel
  induction fuel with
  | zero =>
      intro step c h
      refine ⟨step, ?_, le_refl _, ?_, Or.inr ?_, ?_⟩
      · simp [whileLoopAux]
      · omega
      · omega
      · intro k hk; omega
  | succ fuel ih =>
      intro step c h
      have hstep : step < max_steps := by omega
      cases hc : cond c with
      | false =>
          refine ⟨step, ?_, le_refl _, by omega, ?_, ?_⟩
          · simp [whileLoopAux, hc]
          · left; simpa using hc
          · intro k hk; omega
      | true =>
          obtain ⟨n, heq, h1, h2, h3, h4⟩ := ih (step + 1) (body c) (by omega)
          have hiter : ∀ m, body^[m] (body c) = body^[m + 1] c := by
            intro m
            rw [← Function.iterate_succ_apply]
          have hns : n - step = (n - (step + 1)) + 1 := by omega
          refine ⟨n, ?_, by omega, h2, ?_, ?_⟩
          · rw [whileLoopAux]
            rw [if_pos (by simp [hstep, hc])]
            rw [heq, hns, ← hiter]
          · rcases h3 with h3 | h3
            · left; rw [hns, ← hiter]; exact h3
            · right; exact h3
          · intro k hk
            cases k with
            | zero => simpa using hc
            | succ j =>
                rw [← hiter]
                exact h4 j (by omega)

theorem iterCarryAt_num_steps {Y S A : Type} (solver : IterSolver Y S A)
    (y0 : Y) (state0 : S) (aux0 : A) (k : ℕ) :
    (iterCarryAt solver y0 state0 aux0 k).num_steps = k := by
  induction k with
  | zero => rfl
  | succ j ih =>
      unfold iterCarryAt at *
      rw [Function.iterate_succ_apply']
      simp [iterBodyFun, ih]

/-- C1.  For every solve run through the iteration driver with a finite step
budget, the bounded loop stops exactly when the solver terminate predicate
first holds or the step count reaches `max_steps` (never later, never
earlier); if at loop exit `terminate` is false and the solver-reported result
is `successful`, the final result is downgraded to `max_steps_reached`,
otherwise the solver-reported result stands; and, as long as the solver
itself never reports `max_steps_reached` from `terminate` (true of every
solver in the repository, where that code is produced only by the driver
downgrade), a returned result of `max_steps_reached` forces
`num_steps = max_steps`. -/
theorem iterateDriver_stops_and_downgrades {Y S A : Type}
    (solver : IterSolver Y S A) (max_steps : ℕ) (y0 : Y) (state0 : S)
    (aux0 : A)
    (hres : ∀ y s, (solver.terminate y s).2 ≠ RESULTS.max_steps_reached) :
    ∃ n, n ≤ max_steps
      ∧ (iterateDriver solver max_steps y0 state0 aux0).num_steps = n
      ∧ ((driverTerminateAt solver y0 state0 aux0 n).1 = true ∨ n = max_steps)
      ∧ (∀ k, k < n → (driverTerminateAt solver y0 state0 aux0 k).1 = false)
      ∧ ((driverTerminateAt solver y0 state0 aux0 n).2 = RESULTS.successful →
          (driverTerminateAt solver y0 state0 aux0 n).1 = false →
          (iterateDriver solver max_steps y0 state0 aux0).result
            = RESULTS.max_steps_reached)
      ∧ ((driverTerminateAt solver y0 state0 aux0 n).1 = true ∨
          (driverTerminateAt solver y0 state0 aux0 n).2 ≠ RESULTS.successful →
          (iterateDriver solver max_steps y0 state0 aux0).result
            = (driverTerminateAt solver y0 state0 aux0 n).2)
      ∧ ((iterateDriver solver max_steps y0 state0 aux0).result
            = RESULTS.max_steps_reached →
          (iterateDriver solver max_steps y0 state0 aux0).num_steps
            = max_steps) := by
  obtain ⟨n, heq, -, h2, h3, h4⟩ :=
    whileLoopAux_spec (iterCondFun solver) (iterBodyFun solver) max_steps
      max_steps 0 ⟨y0, 0, state0, aux0⟩ (by omega)
  have hfinal : whileLoopBounded (iterCondFun solver) (iterBodyFun solver)
      max_steps ⟨y0, 0, state0, aux0⟩ = iterCarryAt solver y0 state0 aux0 n := by
    unfold whileLoopBounded iterCarryAt
    rw [heq]
    simp
  have hns : (iterateDriver solver max_steps y0 state0 aux0).num_steps = n := by
    unfold iterateDriver
    simp only [hfinal]
    exact iterCarryAt_num_steps solver y0 state0 aux0 n
  have hcond : ∀ k, iterCondFun solver (iterCarryAt solver y0 state0 aux0 k)
      = !(driverTerminateAt solver y0 state0 aux0 k).1 := by
    intro k; rfl
  have hstop : (driverTerminateAt solver y0 state0 aux0 n).1 = true
      ∨ n = max_steps := by
    rcases h3 with h3 | h3
    · left
      have := hcond n
      rw [Nat.sub_zero] at h3
      unfold iterCarryAt at this
      rw [this] at h3
      simpa using h3
    · right; exact h3
  have hnot : ∀ k, k < n → (driverTerminateAt solver y0 state0 aux0 k).1
      = false := by
    intro k hk
    have := h4 k (by omega)
    have hc := hcond k
    unfold iterCarryAt at hc
    rw [hc] at this
    simpa using this
  have hresult : (iterateDriver solver max_steps y0 state0 aux0).result
      = RESULTS.select
          (decide ((driverTerminateAt solver y0 state0 aux0 n).2
              = RESULTS.successful)
            && !(driverTerminateAt solver y0 state0 aux0 n).1)
          RESULTS.max_steps_reached
          (driverTerminateAt solver y0 state0 aux0 n).2 := by
    unfold iterateDriver
    simp only [hfinal]
    rfl
  refine ⟨n, h2, hns, hstop, hnot, ?_, ?_, ?_⟩
  · intro hsucc hterm
    rw [hresult, hsucc, hterm]
    simp [RESULTS.select]
  · intro h
    rw [hresult]
    rcases h with h | h
    · rw [h]; simp [RESULTS.select]
    · simp [RESULTS.select, h]
  · intro hmsr
    rw [hresult] at hmsr
    by_cases hterm : (driverTerminateAt solver y0 state0 aux0 n).1 = true
    · exfalso
      rw [hterm] at hmsr
      simp [RESULTS.select] at hmsr
      exact hres _ _ hmsr
    · have hterm2 : (driverTerminateAt solver y0 state0 aux0 n).1 = false := by
        simpa using hterm
      have : n = max_steps := by
        rcases hstop with h | h
        · rw [hterm2] at h; cases h
        · exact h
      rw [hns, this]

theorem iterateDriver_stops_and_downgrades_witness :
    ∃ n, n ≤ 5
      ∧ (iterateDriver exampleSolver 5 0 0 ()).num_steps = n
      ∧ ((driverTerminateAt exampleSolver 0 0 () n).1 = true ∨ n = 5)
      ∧ (∀ k, k < n → (driverTerminateAt exampleSolver 0 0 () k).1 = false)
      ∧ ((driverTerminateAt exampleSolver 0 0 () n).2 = RESULTS.successful →
          (driverTerminateAt exampleSolver 0 0 () n).1 = false →
          (iterateDriver exampleSolver 5 0 0 ()).result
            = RESULTS.max_steps_reached)
      ∧ ((driverTerminateAt exampleSolver 0 0 () n).1 = true ∨
          (driverTerminateAt exampleSolver 0 0 () n).2 ≠ RESULTS.successful →
          (iterateDriver exampleSolver 5 0 0 ()).result
            = (driverTerminateAt exampleSolver 0 0 () n).2)
      ∧ ((iterateDriver exampleSolver 5 0 0 ()).result
            = RESULTS.max_steps_reached →
          (iterateDriver exampleSolver 5 0 0 ()).num_steps = 5) :=
  iterateDriver_stops_and_downgrades exampleSolver 5 0 0 ()
    (fun y s => by simp [exampleSolver])

/-- C2.  For every Newton/Chord state, `terminate` returns true exactly when
`step >= 2` and at least one of `small` (`diffsize < 10^(2 - precision)`),
`diverged` (`rate = diffsize / diffsize_prev` non-finite or `rate > 2`) or
`converged` (`0 < factor < kappa` with
`factor = diffsize * rate / (1 - rate)`) holds; the reported result follows
the precedence `small > diverged > converged` (success when small, divergence
when diverged and not small, success when converged and neither small nor
diverged); and the default `kappa` is `1e-2`.  (The `jaxopt` result code
`divergence` is the nonlinear-divergence code of the claim.) -/
theorem newtonChordTerminate_spec (kappa : ℚ) (precision : ℕ)
    (s : NewtonChordState) :
    ((newtonChordTerminate kappa precision s).1 = true ↔
      (2 ≤ s.step ∧
        (F.lt s.diffsize (F.fin ((10 : ℚ) ^ ((2 : ℤ) - (precision : ℤ)))) = true
          ∨ (F.div s.diffsize s.diffsize_prev).isFinite = false
          ∨ F.lt (F.fin 2) (F.div s.diffsize s.diffsize_prev) = true
          ∨ (F.lt (F.fin 0)
                (F.div (F.mul s.diffsize (F.div s.diffsize s.diffsize_prev))
                  (F.sub (F.fin 1) (F.div s.diffsize s.diffsize_prev))) = true
              ∧ F.lt
                  (F.div (F.mul s.diffsize (F.div s.diffsize s.diffsize_prev))
                    (F.sub (F.fin 1) (F.div s.diffsize s.diffsize_prev)))
                  (F.fin kappa) = true))))
    ∧ (F.lt s.diffsize (F.fin ((10 : ℚ) ^ ((2 : ℤ) - (precision : ℤ)))) = true →
        (newtonChordTerminate kappa precision s).2 = Jaxopt.RESULTS.successful)
    ∧ (F.lt s.diffsize (F.fin ((10 : ℚ) ^ ((2 : ℤ) - (precision : ℤ)))) = false →
        newtonDiverged (F.div s.diffsize s.diffsize_prev) = true →
        (newtonChordTerminate kappa precision s).2 = Jaxopt.RESULTS.divergence)
    ∧ (F.lt s.diffsize (F.fin ((10 : ℚ) ^ ((2 : ℤ) - (precision : ℤ)))) = false →
        newtonDiverged (F.div s.diffsize s.diffsize_prev) = false →
        newtonConverged
          (F.div (F.mul s.diffsize (F.div s.diffsize s.diffsize_prev))
            (F.sub (F.fin 1) (F.div s.diffsize s.diffsize_prev))) kappa = true →
        (newtonChordTerminate kappa precision s).2 = Jaxopt.RESULTS.successful)
    ∧ newtonKappaDefault = 1/100 := by
  refine ⟨?_, ?_, ?_, ?_, rfl⟩
  · simp only [newtonChordTerminate, newtonSmall, newtonDiverged,
      newtonConverged, finfoResolution, Bool.and_eq_true, Bool.or_eq_true,
      decide_eq_true_eq, Bool.not_eq_true']
    tauto
  · intro hsmall
    simp [newtonChordTerminate, newtonSmall, finfoResolution, hsmall]
  · intro hsmall hdiv
    simp [newtonChordTerminate, newtonSmall, finfoResolution, hsmall, hdiv]
  · intro hsmall hdiv hconv
    simp [newtonChordTerminate, newtonSmall, finfoResolution, hsmall, hdiv,
      hconv]

theorem newtonChordTerminate_spec_witness :
    (newtonChordTerminate (1/100) 6 ⟨2, F.fin 0, F.fin 1⟩).2
        = Jaxopt.RESULTS.successful
    ∧ (newtonChordTerminate (1/100) 6 ⟨2, F.fin 1, F.fin 0⟩).2
        = Jaxopt.RESULTS.divergence
    ∧ (newtonChordTerminate (1/100) 6 ⟨2, F.fin (1/1000), F.fin (1/100)⟩).2
        = Jaxopt.RESULTS.successful
    ∧ (newtonChordTerminate (1/100) 6 ⟨2, F.fin (1/1000), F.fin (1/100)⟩).1
        = true :=
  ⟨(newtonChordTerminate_spec (1/100) 6 ⟨2, F.fin 0, F.fin 1⟩).2.1
      (by simp [F.lt]; norm_num),
   (newtonChordTerminate_spec (1/100) 6 ⟨2, F.fin 1, F.fin 0⟩).2.2.1
      (by simp [F.lt]; norm_num) (by simp [newtonDiverged, F.div, F.isFinite]),
   (newtonChordTerminate_spec (1/100) 6
      ⟨2, F.fin (1/1000), F.fin (1/100)⟩).2.2.2.1
      (by simp [F.lt]; norm_num)
      (by simp [newtonDiverged, F.div, F.isFinite, F.lt]; norm_num)
      (by norm_num [newtonConverged, F.div, F.mul, F.sub, F.add, F.neg, F.lt]),
   (newtonChordTerminate_spec (1/100) 6
      ⟨2, F.fin (1/1000), F.fin (1/100)⟩).1.mpr
      (by refine ⟨by norm_num, Or.inr (Or.inr (Or.inr ?_))⟩
          norm_num [F.div, F.mul, F.sub, F.add, F.neg, F.lt])⟩

/-- C3 counterexample.  The claim says the step-size is multiplied by
`k_high` whenever `good` holds (`f_new < f_prev + c_high * rho_pred`), with
`bad` only as the `else` branch.  At `f_prev = 0`, `f_new = 1/2`,
`rho_pred = 1`, step size `y = 1` (with the default constants), `good` holds,
yet the code returns `y * k_low = 1/4`, not `y * k_high = 7/2`: the second
`jnp.where` applies `bad` over `good`, and both hold when the predicted
reduction is positive. -/
theorem classicalTrustRegion_precedence_counterexample :
    ((1 : ℚ)/2 < 0 + (99/100) * 1)
    ∧ ((1 : ℚ)/2 > 0 + (1/100) * 1)
    ∧ (classicalTrustRegionStep classicalTrustRegionDefaults 0 (1/2) 1 1).1
        = 1/4
    ∧ (classicalTrustRegionStep classicalTrustRegionDefaults 0 (1/2) 1 1).1
        ≠ 1 * (7/2) := by
  refine ⟨by norm_num, by norm_num, ?_, ?_⟩ <;>
    simp [classicalTrustRegionStep, classicalTrustRegionDefaults] <;> norm_num

/-- C3 (amended).  In the Classical trust-region controller, acceptance
(`finished`) is declared exactly when `f_new < f_prev + c_low * rho_pred`;
the step-size parameter is multiplied by `k_low` whenever the step is bad
(`f_new > f_prev + c_low * rho_pred`), else multiplied by `k_high` when good
(`f_new < f_prev + c_high * rho_pred`), else kept unchanged (i.e. `bad` takes
precedence over `good`, the two overlapping only when `rho_pred > 0`); the
defaults are `c_low = 0.01`, `c_high = 0.99`, `k_high = 3.5`,
`k_low = 0.25`. -/
theorem classicalTrustRegionStep_spec (p : TRParams)
    (f_prev f_new rho y : ℚ) :
    ((classicalTrustRegionStep p f_prev f_new rho y).2 = true ↔
        f_new < f_prev + p.low_cutoff * rho)
    ∧ (f_new > f_prev + p.low_cutoff * rho →
        (classicalTrustRegionStep p f_prev f_new rho y).1 = y * p.low_constant)
    ∧ (¬(f_new > f_prev + p.low_cutoff * rho) →
        f_new < f_prev + p.high_cutoff * rho →
        (classicalTrustRegionStep p f_prev f_new rho y).1 = y * p.high_constant)
    ∧ (¬(f_new > f_prev + p.low_cutoff * rho) →
        ¬(f_new < f_prev + p.high_cutoff * rho) →
        (classicalTrustRegionStep p f_prev f_new rho y).1 = y)
    ∧ classicalTrustRegionDefaults
        = ⟨99/100, 1/100, 7/2, 1/4⟩ := by
  refine ⟨?_, ?_, ?_, ?_, rfl⟩
  · simp [classicalTrustRegionStep]
  · intro hbad
    simp [classicalTrustRegionStep, hbad]
  · intro hbad hgood
    simp [classicalTrustRegionStep, hbad, hgood]
  · intro hbad hgood
    simp [classicalTrustRegionStep, hbad, hgood]

theorem classicalTrustRegionStep_spec_witness :
    ((classicalTrustRegionStep classicalTrustRegionDefaults 0 1 (-1) 2).1
        = 2 * (1/4))
    ∧ ((classicalTrustRegionStep classicalTrustRegionDefaults 0 (-1) (-1) 2).1
        = 2 * (7/2))
    ∧ ((classicalTrustRegionStep classicalTrustRegionDefaults 0 (-1/2) (-1) 2).1
        = 2) :=
  ⟨(classicalTrustRegionStep_spec classicalTrustRegionDefaults 0 1 (-1) 2).2.1
      (by norm_num [classicalTrustRegionDefaults]),
   (classicalTrustRegionStep_spec classicalTrustRegionDefaults 0 (-1) (-1)
      2).2.2.1 (by norm_num [classicalTrustRegionDefaults])
      (by norm_num [classicalTrustRegionDefaults]),
   (classicalTrustRegionStep_spec classicalTrustRegionDefaults 0 (-1/2) (-1)
      2).2.2.2.1 (by norm_num [classicalTrustRegionDefaults])
      (by norm_num [classicalTrustRegionDefaults])⟩

/-- C4 counterexample.  The claim declares success when
`f(y + delta*d) <= f0 + alpha * delta * <g, d>` (non-strict).  At the state
with `f_delta = 1`, `f0 = 1`, `vector = [1]`, `diff = [0]` and `step = 2`
(no Gauss–Newton), the clipped predicted reduction is `0`, so the claimed
non-strict condition `1 <= 1 + 0` holds with `step > 1`, yet the code
(`state.f_delta < state.f0 + slope * predicted_reduction`) declares
`finished = false`: the source inequality is strict. -/
theorem backtrackingArmijo_nonstrict_counterexample :
    ((1 : ℚ) ≤ 1 + backtrackSlopeDefault * min (dotQ [1] [0]) 0)
    ∧ ((1 : ℕ) < 2)
    ∧ (backtrackingArmijoTerminate false backtrackSlopeDefault
        ⟨1, 1, [1], [], [0], false, RESULTS.successful, 2⟩).1 = false := by
  refine ⟨by norm_num [dotQ], by norm_num, ?_⟩
  norm_num [backtrackingArmijoTerminate, dotQ, backtrackSlopeDefault]

/-- C4 (amended).  For every step of the backtracking-Armijo line search, the
trial step-size is multiplied by the decrease factor (the returned iterate is
`y * decrease_factor`, and the state step count increments); success is
declared exactly when `f(y + delta*d) < f0 + alpha * delta * <g, d>` with the
inequality STRICT (not `<=` as originally claimed), where the predicted
reduction `<g, delta*d>` is clipped at zero from above and `g` is
`operatorᵀ vector` in the Gauss–Newton case; success is never declared unless
`step > 1` (at least two evaluations); and the in-repository defaults are
`decrease_factor = 0.5`, `backtrack_slope = 0.1`
(`LevenbergMarquardt.__init__`). -/
theorem backtrackingArmijo_spec (gn : Bool) (slope decrease : ℚ)
    (fn : ℚ → ℚ × List ℚ × RESULTS) (y : ℚ) (st : BacktrackingState) :
    ((backtrackingArmijoStep decrease fn y st).1 = y * decrease)
    ∧ ((backtrackingArmijoStep decrease fn y st).2.step = st.step + 1)
    ∧ ((backtrackingArmijoTerminate gn slope st).1 = true ↔
        (st.f_delta < st.f0 + slope *
            min (dotQ (if gn then matMv st.operatorMat.transpose st.vector
                       else st.vector) st.diff) 0
          ∧ 1 < st.step))
    ∧ (st.step ≤ 1 → (backtrackingArmijoTerminate gn slope st).1 = false)
    ∧ backtrackSlopeDefault = 1/10 ∧ decreaseFactorDefault = 1/2 := by
  refine ⟨rfl, rfl, ?_, ?_, rfl, rfl⟩
  · simp [backtrackingArmijoTerminate]
  · intro h
    have h2 : ¬(1 < st.step) := by omega
    simp [backtrackingArmijoTerminate, h2]

theorem backtrackingArmijo_spec_witness :
    ((backtrackingArmijoStep (1/2)
        (fun d => (d, [d], RESULTS.successful)) 2
        ⟨0, 1, [1], [], [-1], false, RESULTS.successful, 2⟩).1 = 2 * (1/2))
    ∧ ((backtrackingArmijoTerminate false (1/10)
        ⟨0, 1, [1], [], [-1], false, RESULTS.successful, 2⟩).1 = true)
    ∧ ((backtrackingArmijoTerminate false (1/10)
        ⟨0, 1, [1], [], [-1], false, RESULTS.successful, 0⟩).1 = false) :=
  ⟨(backtrackingArmijo_spec false (1/10) (1/2)
      (fun d => (d, [d], RESULTS.successful)) 2
      ⟨0, 1, [1], [], [-1], false, RESULTS.successful, 2⟩).1,
   ((backtrackingArmijo_spec false (1/10) (1/2)
      (fun d => (d, [d], RESULTS.successful)) 2
      ⟨0, 1, [1], [], [-1], false, RESULTS.successful, 2⟩).2.2.1).mpr
      (by norm_num [dotQ]),
   (backtrackingArmijo_spec false (1/10) (1/2)
      (fun d => (d, [d], RESULTS.successful)) 2
      ⟨0, 1, [1], [], [-1], false, RESULTS.successful, 0⟩).2.2.2.1
      (by norm_num)⟩

/-- C5.  The Auto dispatcher selects the concrete solver as a function of
squareness (`in_size == out_size`) and the tag set only: square, symmetric,
nonsingular gives Cholesky; square, symmetric, possibly singular gives CG;
square, asymmetric, nonsingular gives LU; square, asymmetric, possibly
singular gives SVD; non-square gives SVD. -/
theorem autoLinearSolver_dispatch_spec (inSize outSize : ℕ) (t : Jaxopt.Tags) :
    (inSize = outSize → t.symmetric = true → t.nonsingular = true →
      Jaxopt.autoLinearSolverInit inSize outSize (Jaxopt.patternOfTags t)
        = Jaxopt.SolverChoice.Cholesky)
    ∧ (inSize = outSize → t.symmetric = true → t.nonsingular = false →
      Jaxopt.autoLinearSolverInit inSize outSize (Jaxopt.patternOfTags t)
        = Jaxopt.SolverChoice.CG)
    ∧ (inSize = outSize → t.symmetric = false → t.nonsingular = true →
      Jaxopt.autoLinearSolverInit inSize outSize (Jaxopt.patternOfTags t)
        = Jaxopt.SolverChoice.LU)
    ∧ (inSize = outSize → t.symmetric = false → t.nonsingular = false →
      Jaxopt.autoLinearSolverInit inSize outSize (Jaxopt.patternOfTags t)
        = Jaxopt.SolverChoice.SVD)
    ∧ (inSize ≠ outSize →
      Jaxopt.autoLinearSolverInit inSize outSize (Jaxopt.patternOfTags t)
        = Jaxopt.SolverChoice.SVD) := by
  refine ⟨?_, ?_, ?_, ?_, ?_⟩
  · intro h1 h2 h3
    simp [Jaxopt.autoLinearSolverInit, Jaxopt.patternOfTags, h1, h2, h3]
  · intro h1 h2 h3
    simp [Jaxopt.autoLinearSolverInit, Jaxopt.patternOfTags, h1, h2, h3]
  · intro h1 h2 h3
    simp [Jaxopt.autoLinearSolverInit, Jaxopt.patternOfTags, h1, h2, h3]
  · intro h1 h2 h3
    simp [Jaxopt.autoLinearSolverInit, Jaxopt.patternOfTags, h1, h2, h3]
  · intro h
    simp [Jaxopt.autoLinearSolverInit, h]

theorem autoLinearSolver_dispatch_spec_witness :
    (Jaxopt.autoLinearSolverInit 2 2 (Jaxopt.patternOfTags ⟨true, true⟩)
        = Jaxopt.SolverChoice.Cholesky)
    ∧ (Jaxopt.autoLinearSolverInit 2 2 (Jaxopt.patternOfTags ⟨true, false⟩)
        = Jaxopt.SolverChoice.CG)
    ∧ (Jaxopt.autoLinearSolverInit 2 2 (Jaxopt.patternOfTags ⟨false, true⟩)
        = Jaxopt.SolverChoice.LU)
    ∧ (Jaxopt.autoLinearSolverInit 2 2 (Jaxopt.patternOfTags ⟨false, false⟩)
        = Jaxopt.SolverChoice.SVD)
    ∧ (Jaxopt.autoLinearSolverInit 2 3 (Jaxopt.patternOfTags ⟨true, true⟩)
        = Jaxopt.SolverChoice.SVD) :=
  ⟨(autoLinearSolver_dispatch_spec 2 2 ⟨true, true⟩).1 rfl rfl rfl,
   (autoLinearSolver_dispatch_spec 2 2 ⟨true, false⟩).2.1 rfl rfl rfl,
   (autoLinearSolver_dispatch_spec 2 2 ⟨false, true⟩).2.2.1 rfl rfl rfl,
   (autoLinearSolver_dispatch_spec 2 2 ⟨false, false⟩).2.2.2.1 rfl rfl rfl,
   (autoLinearSolver_dispatch_spec 2 3 ⟨true, true⟩).2.2.2.2 (by omega)⟩

/-- C6.  In both outer solvers that run an inner line search
(`AbstractGradOnly.step` and `AbstractGradientDescent.step`), an inner
line-search result of `max_steps_reached` is recorded as `successful`, and
every other inner result is passed through unchanged — so a line search
exhausting its own step budget never by itself downgrades the outer
result. -/
theorem lineSearchMaxSteps_promoted_spec (r : RESULTS) :
    gradOnlyStepResult RESULTS.max_steps_reached = RESULTS.successful
    ∧ gradientDescentStepResult RESULTS.max_steps_reached = RESULTS.successful
    ∧ (r ≠ RESULTS.max_steps_reached →
        gradOnlyStepResult r = r ∧ gradientDescentStepResult r = r) := by
  refine ⟨rfl, rfl, ?_⟩
  intro h
  constructor
  · simp [gradOnlyStepResult, h]
  · simp [gradientDescentStepResult, RESULTS.select, h]

theorem lineSearchMaxSteps_promoted_spec_witness :
    (gradOnlyStepResult RESULTS.max_steps_reached = RESULTS.successful
      ∧ gradientDescentStepResult RESULTS.max_steps_reached
          = RESULTS.successful)
    ∧ (gradOnlyStepResult RESULTS.nonlinear_divergence
          = RESULTS.nonlinear_divergence
      ∧ gradientDescentStepResult RESULTS.nonlinear_divergence
          = RESULTS.nonlinear_divergence) :=
  ⟨⟨(lineSearchMaxSteps_promoted_spec RESULTS.nonlinear_divergence).1,
    (lineSearchMaxSteps_promoted_spec RESULTS.nonlinear_divergence).2.1⟩,
   (lineSearchMaxSteps_promoted_spec RESULTS.nonlinear_divergence).2.2
     (by simp)⟩

/-- C7.  For every trust-radius parameter `delta`, the direct iterative-dual
descent computes `mu = 1/delta` (infinity when `delta` is at or below machine
epsilon), solves the damped system `(B + mu*I) p = v` via the linear-solve
collaborator and returns `-p`; for `delta = 0` (i.e. `delta <= eps`) it
returns the all-zero step regardless of the solver output; and in the
Gauss–Newton case the damped function augments `f` with the
`sqrt(mu)`-scaled identity rows (`_Damped` returns `(f(y), sqrt(mu) * y)`)
against the right-hand side `(v, 0)`. -/
theorem directIterativeDual_spec (solve : List (List F) → List F → List F)
    (sqrtF : F → F) (fn : List F → List F) (eps delta : ℚ)
    (B : List (List F)) (v y : List F) :
    (delta ≤ eps →
      directIterativeDualCall solve eps B v delta
        = List.replicate (solve (matAddSmulIdentity B F.inf) v).length
            (F.fin 0))
    ∧ (delta ≤ eps → directDualDamping eps delta = F.inf)
    ∧ (eps < delta → directDualDamping eps delta = F.fin (1 / delta))
    ∧ (eps < delta →
        directIterativeDualCall solve eps B v delta
          = (solve (matAddSmulIdentity B (F.fin (1 / delta))) v).map F.neg)
    ∧ (dampedCall sqrtF fn (directDualDamping eps delta) y
        = (fn y, y.map (fun yi => F.mul (sqrtF (directDualDamping eps delta)) yi)))
    ∧ directDualGNVector v y = (v, y.map (fun _ => F.fin 0)) := by
  refine ⟨?_, ?_, ?_, ?_, rfl, rfl⟩
  · intro h
    have hd : ¬(eps < delta) := not_lt.mpr h
    simp [directIterativeDualCall, directDualDamping, hd, List.map_const']
  · intro h
    simp [directDualDamping, not_lt.mpr h]
  · intro h
    simp [directDualDamping, h]
  · intro h
    simp [directIterativeDualCall, directDualDamping, h]

theorem directIterativeDual_spec_witness :
    (directIterativeDualCall (fun _ w => w) 0 [[F.fin 1]] [F.fin 2] 0
        = List.replicate
            ((fun (_ : List (List F)) (w : List F) => w)
              (matAddSmulIdentity [[F.fin 1]] F.inf) [F.fin 2]).length
            (F.fin 0))
    ∧ (directDualDamping 0 0 = F.inf)
    ∧ (directDualDamping 0 1 = F.fin (1 / 1))
    ∧ (directIterativeDualCall (fun _ w => w) 0 [[F.fin 1]] [F.fin 2] 1
        = ((fun (_ : List (List F)) (w : List F) => w)
            (matAddSmulIdentity [[F.fin 1]] (F.fin (1 / 1))) [F.fin 2]).map
            F.neg) :=
  ⟨(directIterativeDual_spec (fun _ w => w) (fun x => x) (fun x => x) 0 0
      [[F.fin 1]] [F.fin 2] []).1 le_rfl,
   (directIterativeDual_spec (fun _ w => w) (fun x => x) (fun x => x) 0 0
      [[F.fin 1]] [F.fin 2] []).2.1 le_rfl,
   (directIterativeDual_spec (fun _ w => w) (fun x => x) (fun x => x) 0 1
      [[F.fin 1]] [F.fin 2] []).2.2.1 (by norm_num),
   (directIterativeDual_spec (fun _ w => w) (fun x => x) (fun x => x) 0 1
      [[F.fin 1]] [F.fin 2] []).2.2.2.1 (by norm_num)⟩

/-- C8.  `_NewtonChord.step` evaluates `f`, solves for `diff`, updates
`y ← y − diff` (as the claim states), but computes the termination scale as
`atol + rtol * y` on the raw iterate rather than `atol + rtol * |y|`.  At
`atol = rtol = 1`, iterate `y = [-1]` and solve output `diff = [1]`, the code
scale is `0`, making the scaled difference (and hence `diffsize`) infinite,
while the scale prescribed by the claim is `2` and gives the finite `1/2`. -/
theorem newtonStep_abs_missing_eval :
    (newtonScale 1 1 [F.fin (-1)] = [F.fin 0])
    ∧ (newtonScaledDiff 1 1 [F.fin (-1)] [F.fin 1] = [F.inf])
    ∧ (newtonScaledDiffSpec 1 1 [F.fin (-1)] [F.fin 1] = [F.fin (1/2)])
    ∧ (newtonScaledDiff 1 1 [F.fin (-1)] [F.fin 1]
        ≠ newtonScaledDiffSpec 1 1 [F.fin (-1)] [F.fin 1])
    ∧ ((newtonChordStep (fun l => l) (fun l => l.map F.neg)
          (fun l => l.headD (F.fin 0)) 1 1 [F.fin (-1)]
          ⟨0, F.fin 0, F.fin 0⟩).1 = [F.fin (-2)])
    ∧ ((newtonChordStep (fun l => l) (fun l => l.map F.neg)
          (fun l => l.headD (F.fin 0)) 1 1 [F.fin (-1)]
          ⟨0, F.fin 0, F.fin 0⟩).2.diffsize = F.inf)
    ∧ F.inf.isFinite = false := by
  refine ⟨?_, ?_, ?_, ?_, ?_, ?_, rfl⟩
  · norm_num [newtonScale, F.add, F.mul]
  · norm_num [newtonScaledDiff, newtonScale, F.add, F.mul, F.div]
  · norm_num [newtonScaledDiffSpec, F.add, F.mul, F.div, F.abs]
  · norm_num [newtonScaledDiff, newtonScaledDiffSpec, newtonScale, F.add,
      F.mul, F.div, F.abs]
    exact fun hc => F.noConfusion hc
  · norm_num [newtonChordStep, F.sub, F.add, F.neg]
  · norm_num [newtonChordStep, newtonScaledDiff, newtonScale, F.add, F.mul,
      F.div, F.neg]

theorem list_getD_zero (l : List ℚ) (h : ∀ x ∈ l, x = 0) :
    ∀ j, l.getD j 0 = 0 := by
  induction l with
  | nil => intro j; rfl
  | cons a t ih =>
      intro j
      cases j with
      | zero => exact h a (by simp)
      | succ k =>
          simpa using ih (fun x hx => h x (by simp [hx])) k

theorem getClamped_zero (l : List ℚ) (h : ∀ x ∈ l, x = 0) (i : ℕ) :
    getClamped l i = 0 := by
  unfold getClamped
  split
  · exact list_getD_zero l h i
  · exact list_getD_zero l h _

theorem thomasScanGo_unit (lo up : List ℚ) (hlo : ∀ x ∈ lo, x = 0)
    (hup : ∀ x ∈ up, x = 0) (size : ℕ) :
    ∀ (v : List ℚ) (step : ℕ) (c_p d_p : ℚ),
      thomasScanGo lo up size step c_p d_p (v.map (fun d => ((1 : ℚ), d)))
        = v.map (fun d => ((0 : ℚ), d)) := by
  intro v
  induction v with
  | nil => intro step c_p d_p; rfl
  | cons d t ih =>
      intro step c_p d_p
      simp only [List.map_cons, thomasScanGo,
        getClamped_zero lo hlo, getClamped_zero up hup]
      norm_num
      exact ih (step + 1) 0 d

theorem thomasBacksub_unit : ∀ v : List ℚ,
    (v.map (fun d => ((0 : ℚ), d))).foldr
      (fun cd acc =>
        ((cd.2 - cd.1 * acc.1, (cd.2 - cd.1 * acc.1) :: acc.2) : ℚ × List ℚ))
      ((0 : ℚ), ([] : List ℚ)) = (v.headD 0, v) := by
  intro v
  induction v with
  | nil => rfl
  | cons d t ih =>
      simp only [List.map_cons, List.foldr_cons, ih]
      norm_num

theorem zip_map_one : ∀ v : List ℚ,
    List.zip (v.map (fun _ => (1 : ℚ))) v = v.map (fun d => ((1 : ℚ), d)) := by
  intro v
  induction v with
  | nil => rfl
  | cons d t ih => simp only [List.map_cons, List.zip_cons_cons, ih]

/-- C9 counterexample.  The claim says the Tridiagonal solver acts as the
identity on the vector for every accepted operator carrying the unit-diagonal
tag.  The matrix `[[1, 1], [0, 1]]` is tridiagonal with unit diagonal (so it
may carry both tags, tags being true lower bounds), but
`Tridiagonal.compute` runs the Thomas algorithm on the actual three diagonals
`([1, 1], [0], [1])` and returns `[0, 1]` for the vector `[1, 1]` — the true
solve of the system, not the vector itself. -/
theorem tridiagonal_unitDiagonal_counterexample :
    (matHasUnitDiagonal [[1, 1], [0, 1]] = true)
    ∧ (matIsTridiagonal [[1, 1], [0, 1]] = true)
    ∧ (matTridiagonalParts [[1, 1], [0, 1]] = ([1, 1], [0], [1]))
    ∧ (tridiagonalCompute [1, 1] [0] [1] [1, 1] = [0, 1])
    ∧ (([0, 1] : List ℚ) ≠ [1, 1]) := by
  refine ⟨?_, ?_, ?_, ?_, by simp⟩
  · norm_num [matHasUnitDiagonal, matEntry, List.range_succ]
  · norm_num [matIsTridiagonal, matEntry, List.range_succ]
  · norm_num [matTridiagonalParts, matEntry, List.range_succ]
  · norm_num [tridiagonalCompute, thomasScanGo, thomasBacksub, getClamped]

/-- C9 (amended).  The Diagonal solver short-circuits on the unit-diagonal
tag and returns the vector unchanged, for every vector and every rcond
configuration.  The Tridiagonal solver ignores the unit-diagonal tag and
performs a genuine Thomas solve on the extracted diagonals; it returns the
vector unchanged precisely in the case where the extracted off-diagonals are
zero (and the diagonal is all ones), i.e. when the operator matrix is the
identity. -/
theorem unitDiagonal_solvers_spec (well_posed : Bool) (rcond : Option ℚ)
    (eps : ℚ) (diag : List F) (v : List F) (lo up vq : List ℚ) :
    (diagonalCompute well_posed rcond eps diag true v = v)
    ∧ ((∀ x ∈ lo, x = 0) → (∀ x ∈ up, x = 0) →
        tridiagonalCompute (vq.map (fun _ => 1)) lo up vq = vq) := by
  refine ⟨rfl, ?_⟩
  intro hlo hup
  unfold tridiagonalCompute thomasBacksub
  dsimp only
  rw [zip_map_one, thomasScanGo_unit lo up hlo hup _ vq 0 0 0,
    thomasBacksub_unit]

theorem unitDiagonal_solvers_spec_witness :
    (diagonalCompute false none 0 [F.fin 5] true [F.fin 7] = [F.fin 7])
    ∧ (tridiagonalCompute (([3, 4] : List ℚ).map (fun _ => 1)) [0] [0] [3, 4]
        = [3, 4]) :=
  ⟨(unitDiagonal_solvers_spec false none 0 [F.fin 5] [F.fin 7] [0] [0]
      [3, 4]).1,
   (unitDiagonal_solvers_spec false none 0 [F.fin 5] [F.fin 7] [0] [0]
      [3, 4]).2 (by simp) (by simp)⟩

/-- C10.  The default root-mean-square norm is total on all value trees: on
every tree whose flattened leaves have zero total size it returns exactly `0`
(whereas the unguarded mean of squares is `0 / 0 = nan` there), and on every
non-empty tree it returns `sqrt` of the mean of the squared elements. -/
theorem rmsNorm_spec (sqrtF : F → F) (t : ValueTree) :
    (t.ravel.length = 0 →
      rmsNorm sqrtF t = F.fin 0 ∧ meanSqF t.ravel = F.nan)
    ∧ (t.ravel.length ≠ 0 →
      rmsNorm sqrtF t
        = sqrtF (F.div (sumSqF t.ravel) (F.fin (t.ravel.length : ℚ)))) := by
  constructor
  · intro h
    have he : t.ravel = [] := List.length_eq_zero.mp h
    refine ⟨by simp [rmsNorm, h], ?_⟩
    rw [he]
    norm_num [meanSqF, sumSqF, F.div]
  · intro h
    simp [rmsNorm, meanSqF, h]

theorem rmsNorm_spec_witness :
    (rmsNorm (fun x => x) (ValueTree.leaf []) = F.fin 0
      ∧ meanSqF (ValueTree.leaf []).ravel = F.nan)
    ∧ rmsNorm (fun x => x) (ValueTree.leaf [F.fin 3])
        = (fun x => x) (F.div (sumSqF (ValueTree.leaf [F.fin 3]).ravel)
            (F.fin (((ValueTree.leaf [F.fin 3]).ravel.length : ℕ) : ℚ))) :=
  ⟨(rmsNorm_spec (fun x => x) (ValueTree.leaf [])).1 rfl,
   (rmsNorm_spec (fun x => x) (ValueTree.leaf [F.fin 3])).2
     (by simp [ValueTree.ravel])⟩
